import Mathlib

set_option autoImplicit false

/-!
Verification development for the dsp data stream processing runtime.

Each C++ component named by the claims is translated into a Lean definition
(shallow embedding): byte buffers become lists of naturals, maps become
association lists, stateful loops become explicit step functions, fallible
code returns Except or Option. Theorems then settle the behavioural claims
against these definitions.
-/

namespace Dsp

/-! ## Message model (src/include/dsp/cache.hh, struct message) -/

/-- Translation of dsp::message: key and payload are byte sequences, the
properties map (std::unordered_map) is an association list with unique keys. -/
structure Message where
  key : List Nat
  subject : String
  properties : List (String × String)
  payload : List Nat
deriving DecidableEq, Repr

/-! ## Router (src/libdsp/libdsp/router.hh) -/

/-- Translation of router::action_type. -/
inductive ActionType where
  | allow
  | deny
deriving DecidableEq, Repr

/-- Translation of router::rule_t (the matcher field has only one value,
exact, and is omitted). -/
structure Rule where
  name : String
  priority : Int
  condition : String × String
  action : ActionType
  destination : String
  subject : String
deriving DecidableEq, Repr

/-- Translation of router::Everything, the sentinel condition. -/
def Everything : String × String := ("*", "*")

/-- Translation of router::match (named ruleMatch because match is a Lean
keyword): an allow rule matches when the value equals the condition value,
a deny rule when it differs. -/
def ruleMatch (value : String) (r : Rule) : Bool :=
  match r.action with
  | .allow => value == r.condition.2
  | .deny => value != r.condition.2

/-- Translation of router::default_match: the boolean used when the message
lacks the condition key. -/
def default_match (r : Rule) : Bool :=
  r.action == ActionType.deny

/-- Translation of the loop body of router::route that computes is_allowed
for one rule. -/
def is_allowed (m : Message) (r : Rule) : Bool :=
  if r.condition = Everything then ruleMatch "*" r
  else
    match m.properties.lookup r.condition.1 with
    | some v => ruleMatch v r
    | none => default_match r

/-- Translation of router::route: walk the stored rules in order and emit a
copy of the message with the subject rewritten for every rule that matched. -/
def route : List Rule → Message → List Message
  | [], _ => []
  | r :: rs, m =>
      (if is_allowed m r then [{ m with subject := r.subject }] else []) ++ route rs m

/-- Translation of the two rules installed by the router constructor. -/
def defaultRules : List Rule :=
  [ { name := ""
    , priority := 1
    , condition := ("type", "heartbeat")
    , action := .allow
    , destination := "main-nb"
    , subject := "heartbeats" }
  , { name := ""
    , priority := 2
    , condition := ("type", "heartbeat")
    , action := .deny
    , destination := "main-nb"
    , subject := "dev-test" } ]

/-- Spec-side matching predicate, written from the amended wording of claim
C1: a sentinel rule matches exactly when its action is allow; with the
condition key present, an allow rule matches on equality and a deny rule on
inequality of the values; with the key absent, exactly deny rules match. -/
def specMatched (m : Message) (r : Rule) : Bool :=
  if r.condition = ("*", "*") then r.action == ActionType.allow
  else
    match m.properties.lookup r.condition.1 with
    | some v => if r.action == ActionType.allow then v == r.condition.2 else v != r.condition.2
    | none => r.action == ActionType.deny

theorem is_allowed_eq_specMatched (m : Message) (r : Rule) :
    is_allowed m r = specMatched m r := by
  unfold is_allowed specMatched ruleMatch default_match Everything
  by_cases h : r.condition = ("*", "*")
  · have h2 : r.condition.2 = "*" := by rw [h]
    simp only [h, if_pos rfl]
    cases r.action <;> simp [h2]
  · simp only [h, if_neg h]
    cases hm : m.properties.lookup r.condition.1 <;> cases r.action <;> simp

theorem route_eq_filter (rules : List Rule) (m : Message) :
    route rules m
      = (rules.filter (fun r => specMatched m r)).map
          (fun r => { m with subject := r.subject }) := by
  induction rules with
  | nil => rfl
  | cons r rs ih =>
      rw [route, ih, List.filter_cons]
      rw [is_allowed_eq_specMatched]
      by_cases h : specMatched m r
      · simp [h]
      · simp [h]

/-- Sample message carrying the heartbeat type property. -/
def hbMsg : Message :=
  { key := [], subject := "", properties := [("type", "heartbeat")], payload := [] }

/-- Sample message with no type property at all. -/
def untypedMsg : Message :=
  { key := [], subject := "", properties := [], payload := [] }

/-- Claim C1 (amended): router::route evaluates the stored rules in order;
a rule whose condition is the sentinel matches exactly when its action is
allow (the code matches the literal value "*", so a sentinel deny rule never
matches); with the condition key present holding V, an allow rule matches
iff V equals the condition value and a deny rule iff V differs; with the key
absent, exactly deny rules match. Each matching rule emits one copy with the
subject replaced, and when the stored rules carry ascending priorities the
emitted copies appear in ascending rule-priority order. For the default rule
set, a message with property type=heartbeat yields exactly one output with
subject heartbeats, and a message with no type property yields exactly one
output with subject dev-test. -/
theorem c1_route_rules (rules : List Rule) (m : Message)
    (hsorted : (rules.map Rule.priority).Sorted (· ≤ ·)) :
    route rules m
        = (rules.filter (fun r => specMatched m r)).map
            (fun r => { m with subject := r.subject })
      ∧ ((rules.filter (fun r => specMatched m r)).map Rule.priority).Sorted (· ≤ ·)
      ∧ route defaultRules hbMsg = [{ hbMsg with subject := "heartbeats" }]
      ∧ route defaultRules untypedMsg = [{ untypedMsg with subject := "dev-test" }] := by
  refine ⟨route_eq_filter rules m, ?_, by decide, by decide⟩
  exact List.Pairwise.sublist (List.Sublist.map _ (List.filter_sublist rules)) hsorted

/-- Witness for c1_route_rules at the default rule set and the heartbeat
message; the sortedness hypothesis is discharged by computation. -/
theorem c1_route_rules_witness :
    route defaultRules hbMsg
        = (defaultRules.filter (fun r => specMatched hbMsg r)).map
            (fun r => { hbMsg with subject := r.subject })
      ∧ route defaultRules hbMsg = [{ hbMsg with subject := "heartbeats" }] :=
  ⟨(c1_route_rules defaultRules hbMsg (by decide)).1,
   (c1_route_rules defaultRules hbMsg (by decide)).2.2.1⟩

/-- Rule with the sentinel condition and action deny, exercising the branch
where claim C1 as stated goes wrong. -/
def sentinelDenyRule : Rule :=
  { name := ""
  , priority := 1
  , condition := ("*", "*")
  , action := .deny
  , destination := "main-nb"
  , subject := "x" }

/-- Counterexample to claim C1 as stated: the claim says a rule whose
condition is the sentinel always matches and emits one copy, but the code
evaluates match with the literal value "*", so this sentinel deny rule does
not match any message and route emits nothing. -/
theorem c1_counterexample :
    sentinelDenyRule.condition = ("*", "*")
      ∧ is_allowed untypedMsg sentinelDenyRule = false
      ∧ route [sentinelDenyRule] untypedMsg = [] := by decide

/-! ## Broadcast cache (src/include/dsp/cache.hh, class cache)

A northbound sink is modelled by its observable send behaviour, a function
from messages to the boolean its send returns. The registry
(std::unordered_map of named sinks) is an association list with unique
keys; iteration order of the map is unspecified, so the list order stands
for an arbitrary iteration order. -/

/-- Behaviour of one northbound interface: what its send returns per message. -/
def Sink : Type := Message → Bool

/-- Translation of the loop of cache::send, threading the success flag and
recording every invocation of a sink together with the boolean it returned. -/
def cacheSendAux (m : Message) : List (String × Sink) → Bool → Bool × List (String × Bool)
  | [], success => (success, [])
  | x :: xs, success =>
      let r := x.2 m
      let rest := cacheSendAux m xs (if r then success else false)
      (rest.1, (x.1, r) :: rest.2)

/-- Translation of cache::send: start with success = true, invoke every
attached interface, clear the flag on each failure, return the flag. The
second component is the invocation log. -/
def cache_send (ifs : List (String × Sink)) (m : Message) : Bool × List (String × Bool) :=
  cacheSendAux m ifs true

theorem cacheSendAux_eq (m : Message) (ifs : List (String × Sink)) (s : Bool) :
    cacheSendAux m ifs s
      = (s && ifs.all (fun x => x.2 m), ifs.map (fun x => (x.1, x.2 m))) := by
  induction ifs generalizing s with
  | nil => simp [cacheSendAux]
  | cons x xs ih =>
      rw [cacheSendAux, ih]
      cases hr : x.2 m <;> cases s <;> simp [hr]

/-- Claim C3: cache::send invokes every attached northbound sink exactly
once with the message, in iteration order, even when an earlier sink
returned false (the invocation log lists each attached sink once with its
result), and returns true if and only if every attached sink returned true. -/
theorem c3_cache_send (ifs : List (String × Sink)) (m : Message) :
    (cache_send ifs m).2 = ifs.map (fun x => (x.1, x.2 m))
      ∧ ((cache_send ifs m).1 = true ↔ ∀ x ∈ ifs, x.2 m = true) := by
  rw [cache_send, cacheSendAux_eq]
  simp [List.all_eq_true]

/-- Translation of cache::attach_northbound: std::unordered_map::insert
does not overwrite an existing entry with the same key; only when the name
is absent is the pair inserted. -/
def attach_northbound (ifs : List (String × Sink)) (name : String) (sink : Sink) :
    List (String × Sink) :=
  if (ifs.lookup name).isSome then ifs else ifs ++ [(name, sink)]

/-- Claim C10: attaching a sink under a name that is already present leaves
the registry unchanged: the previously stored sink stays in place, the newly
passed sink is discarded, and every other entry is untouched. -/
theorem c10_attach_duplicate (ifs : List (String × Sink)) (name : String)
    (s0 s1 : Sink) (h : ifs.lookup name = some s0) :
    attach_northbound ifs name s1 = ifs
      ∧ (attach_northbound ifs name s1).lookup name = some s0 := by
  have hs : (ifs.lookup name).isSome = true := by rw [h]; rfl
  unfold attach_northbound
  rw [if_pos hs]
  exact ⟨rfl, h⟩

/-- Witness for c10_attach_duplicate on a concrete one-entry registry. -/
theorem c10_attach_duplicate_witness :
    attach_northbound [("main-nb", fun _ => true)] "main-nb" (fun _ => false)
      = [("main-nb", fun _ => true)] :=
  (c10_attach_duplicate [("main-nb", fun _ => true)] "main-nb"
    (fun _ => true) (fun _ => false) rfl).1

/-! ## Signal handler (src/include/dsp/daemon.hh, class signal_handler)

The SIGINT handler reads the process-wide atomic counter via fetch_add,
which returns the value before the increment, and calls std::abort when that
value exceeds 1. -/

/-- Translation of signal_handler::handle_signal_int acting on the SIGINT
counter: returns the new counter value and whether std::abort was invoked
(fetch_add yields the previous value, abort fires when it exceeds 1). -/
def handle_signal_int (c : Nat) : Nat × Bool :=
  (c + 1, decide (1 < c))

/-- Counter value after k receipts of SIGINT, starting from zero. -/
def sigintCounter : Nat → Nat
  | 0 => 0
  | k + 1 => (handle_signal_int (sigintCounter k)).1

/-- Whether std::abort is invoked during the k-th receipt (k counted from 1). -/
def sigintAborts : Nat → Bool
  | 0 => false
  | k + 1 => (handle_signal_int (sigintCounter k)).2

theorem sigintCounter_eq (k : Nat) : sigintCounter k = k := by
  induction k with
  | zero => rfl
  | succ k ih => rw [sigintCounter, ih]; rfl

/-- Claim C5: each SIGINT receipt increments the process-wide counter by
one (after k receipts it holds k), the first receipt makes it non-zero, and
std::abort is invoked during the k-th receipt exactly when the value
observed by fetch_add exceeds 1, that is on the third and every later
receipt and never on the first or second. -/
theorem c5_sigint_escalation (k : Nat) :
    sigintCounter k = k
      ∧ (sigintAborts k = true ↔ 3 ≤ k)
      ∧ 0 < sigintCounter 1 := by
  refine ⟨sigintCounter_eq k, ?_, by decide⟩
  cases k with
  | zero => simp [sigintAborts]
  | succ k =>
      rw [sigintAborts, sigintCounter_eq, handle_signal_int]
      simp only [decide_eq_true_eq]
      omega

/-! ## Daemon main loop (src/include/dsp/daemon.hh, daemon::start)

One iteration of the while loop is a tick. Its inputs are the values of the
two stop-signal counters at the has_signal_stop check and the outcome of
the attached watchdog, if any: it returns true, returns false, or throws.
The tick output records whether m_alive is still set afterwards, whether
the watchdog closure was invoked, and whether the tick slept. -/

/-- Outcome of invoking the watchdog closure once. -/
inductive WdResult where
  | ok
  | fails
  | throws
deriving DecidableEq, Repr

/-- Observable effects of one iteration of the daemon while loop. -/
structure TickOut where
  aliveAfter : Bool
  watchdogInvoked : Bool
  slept : Bool
deriving DecidableEq, Repr

/-- Translation of daemon::has_signal_stop: true when the SIGINT counter or
the SIGTERM counter is positive. -/
def has_signal_stop (sigint sigterm : Nat) : Bool :=
  decide (0 < sigint) || decide (0 < sigterm)

/-- Translation of the body of the while loop in daemon::start: the signal
check may call stop, then the watchdog (when attached) is invoked and may
call stop on a false return or an exception, then the thread sleeps for the
interval. -/
def daemonTick (sigint sigterm : Nat) (wd : Option WdResult) : TickOut :=
  let alive1 := if has_signal_stop sigint sigterm then false else true
  match wd with
  | none => { aliveAfter := alive1, watchdogInvoked := false, slept := true }
  | some .ok => { aliveAfter := alive1, watchdogInvoked := true, slept := true }
  | some .fails => { aliveAfter := false, watchdogInvoked := true, slept := true }
  | some .throws => { aliveAfter := false, watchdogInvoked := true, slept := true }

/-- Per-tick input: SIGINT counter, SIGTERM counter, watchdog outcome. -/
def TickIn : Type := Nat × Nat × Option WdResult

/-- Translation of the while loop of daemon::start over a stream of tick
inputs: run ticks while m_alive holds; a tick that clears m_alive is the
last executed one. -/
def daemonRun : List TickIn → List TickOut
  | [] => []
  | t :: ts =>
      let o := daemonTick t.1 t.2.1 t.2.2
      if o.aliveAfter then o :: daemonRun ts else [o]

/-- Condition under which a tick clears m_alive. -/
def stopsAt (t : TickIn) : Bool :=
  has_signal_stop t.1 t.2.1 || t.2.2 == some WdResult.fails || t.2.2 == some WdResult.throws

theorem daemonTick_aliveAfter (sigint sigterm : Nat) (wd : Option WdResult) :
    (daemonTick sigint sigterm wd).aliveAfter = !stopsAt (sigint, sigterm, wd) := by
  cases wd with
  | none => cases h : has_signal_stop sigint sigterm <;> simp [daemonTick, stopsAt, h]
  | some r =>
      cases r <;> cases h : has_signal_stop sigint sigterm <;>
        simp [daemonTick, stopsAt, h]

/-- Claim C6 (amended): on every tick of the daemon loop, m_alive is cleared
exactly when a stop signal (SIGINT or SIGTERM counter non-zero) is observed
or the watchdog returns false or throws; the watchdog, when attached, is
invoked on every executed tick, including a tick that observed a stop
signal; every executed tick sleeps for the interval; and the loop exits
after the first tick that cleared m_alive (that tick is the last executed
one), otherwise it continues. -/
theorem c6_daemon_loop :
    (∀ (si st : Nat) (wd : Option WdResult),
        (daemonTick si st wd).aliveAfter
          = !(has_signal_stop si st || wd == some WdResult.fails || wd == some WdResult.throws))
      ∧ (∀ (si st : Nat) (wd : Option WdResult),
          (daemonTick si st wd).watchdogInvoked = wd.isSome)
      ∧ (∀ (si st : Nat) (wd : Option WdResult), (daemonTick si st wd).slept = true)
      ∧ (∀ (t : TickIn) (ts : List TickIn), stopsAt t = true →
          daemonRun (t :: ts) = [daemonTick t.1 t.2.1 t.2.2])
      ∧ (∀ (t : TickIn) (ts : List TickIn), stopsAt t = false →
          daemonRun (t :: ts) = daemonTick t.1 t.2.1 t.2.2 :: daemonRun ts) := by
  refine ⟨fun si st wd => daemonTick_aliveAfter si st wd, ?_, ?_, ?_, ?_⟩
  · intro si st wd
    cases wd with
    | none => simp [daemonTick]
    | some r => cases r <;> simp [daemonTick]
  · intro si st wd
    cases wd with
    | none => simp [daemonTick]
    | some r => cases r <;> simp [daemonTick]
  · intro t ts h
    obtain ⟨si, st, wd⟩ := t
    rw [daemonRun, daemonTick_aliveAfter, h]
    rfl
  · intro t ts h
    obtain ⟨si, st, wd⟩ := t
    rw [daemonRun, daemonTick_aliveAfter, h]
    rfl

/-- Witness for c6_daemon_loop at concrete inputs: a SIGTERM tick is final. -/
theorem c6_daemon_loop_witness :
    daemonRun [(0, 1, some WdResult.ok), (0, 1, none)]
      = [daemonTick 0 1 (some WdResult.ok)] :=
  c6_daemon_loop.2.2.2.1 (0, 1, some WdResult.ok) [(0, 1, none)] (by decide)

/-- Counterexample to claim C6 as stated: the claim says that on a tick
where the stop-signal counter is non-zero the daemon exits the loop without
reaching the watchdog or the sleep, but the code has no early exit: with
SIGINT counter 1 and a watchdog attached, the tick still invokes the
watchdog and still sleeps for the interval before the loop condition is
re-examined. -/
theorem c6_counterexample :
    has_signal_stop 1 0 = true
      ∧ (daemonTick 1 0 (some WdResult.ok)).watchdogInvoked = true
      ∧ (daemonTick 1 0 (some WdResult.ok)).slept = true := by decide

/-! ## Kafka producer (src/include/dsp/kafka.hh, producer::try_send)

The underlying enqueue send_impl hands the message to librdkafka and
reports an rd_kafka_resp_err_t. The behaviour of try_send is determined by
that status, so it is modelled as a function of the status of its single
enqueue attempt; a raised nova::exception becomes an Except error. -/

/-- Statuses of an enqueue attempt that the producer code distinguishes,
plus the catch-all for every other librdkafka value. -/
inductive RespErr where
  | msgSizeTooLarge
  | unknownPartition
  | unknownTopic
  | queueFull
  | headerReadOnly
  | noError
  | otherError
deriving DecidableEq, Repr

/-- Translation of producer::try_send: the switch over the status of the
single send_impl attempt throws on three statuses, returns false on a full
queue and falls through to return true in every other case (the read-only
header status from rd_kafka_header_add is never inspected). -/
def try_send (status : RespErr) : Except String Bool :=
  match status with
  | .msgSizeTooLarge => .error "Too large message"
  | .unknownPartition => .error "Unknown partition"
  | .unknownTopic => .error "Unknown topic"
  | .queueFull => .ok false
  | _ => .ok true

/-- Claim C4 (amended): try_send makes a single enqueue attempt; it returns
false exactly when that attempt reports a full queue; it raises a fatal
error exactly on MsgTooLarge, UnknownTopic and UnknownPartition — not on
HeaderReadOnly, which like every other remaining outcome makes it return
true. -/
theorem c4_try_send (s : RespErr) :
    (try_send s = .ok false ↔ s = .queueFull)
      ∧ ((∃ e, try_send s = .error e)
          ↔ (s = .msgSizeTooLarge ∨ s = .unknownPartition ∨ s = .unknownTopic))
      ∧ (s = .headerReadOnly → try_send s = .ok true)
      ∧ (s ≠ .queueFull ∧ s ≠ .msgSizeTooLarge ∧ s ≠ .unknownPartition ∧ s ≠ .unknownTopic
          → try_send s = .ok true) := by
  cases s <;> simp [try_send]

/-- Witness for c4_try_send at the read-only header status. -/
theorem c4_try_send_witness : try_send .headerReadOnly = .ok true :=
  (c4_try_send .headerReadOnly).2.2.1 rfl

/-- Counterexample to claim C4 as stated: the claim says try_send raises a
fatal error on the HeaderReadOnly outcome, but the code never inspects that
status (the rd_kafka_header_add result is discarded) and try_send returns
true on it without raising. -/
theorem c4_counterexample :
    try_send RespErr.headerReadOnly = .ok true
      ∧ ¬ ∃ e, try_send RespErr.headerReadOnly = .error e := by
  refine ⟨rfl, ?_⟩
  rintro ⟨e, he⟩
  exact absurd he (by simp [try_send])

/-! ## Kafka consumer (src/libdsp/libdsp/kafka.hpp, consumer::consume)

The code pre-sizes a vector of batch_size message pointers (all null),
lets rd_kafka_consume_batch_queue fill in the first n entries, shrinks the
vector to n on success — but leaves it untouched when the poll reports an
error (return value -1) — and finally wraps every remaining pointer in an
owning message view. A view over a null pointer is an Option that is none. -/

/-- Record received from the broker, as far as the claims need it. -/
structure KRecord where
  err : Int
  key : List Nat
  payload : List Nat
deriving DecidableEq, Repr

/-- Outcome of rd_kafka_consume_batch_queue: an error return of -1, or the
list of records written into the first slots of the array (at most
batch_size many). -/
inductive PollOutcome where
  | pollError
  | received (records : List KRecord)
deriving DecidableEq, Repr

/-- Translation of consumer::consume: the vector starts as batch_size null
pointers; on a poll error it is not shrunk, so every slot is still null; on
success the first n slots hold the received records and the vector is
resized to n; each slot is then wrapped in a message view. -/
def consume (batch_size : Nat) (poll : PollOutcome) : List (Option KRecord) :=
  match poll with
  | .pollError => List.replicate batch_size none
  | .received rs => (rs.take batch_size).map some

/-- Claim C7 records the divergence: when the underlying poll fails,
consume is supposed to yield a batch containing no messages, but the code
skips the resize on the error path and returns batch_size owning views each
wrapping a null pointer — views over absent records. At batch size 2 the
result is two null views, not an empty batch; the successful path does
return views over exactly the received records. -/
theorem c7_consume_error_batch :
    consume 2 .pollError = [none, none]
      ∧ consume 2 .pollError ≠ []
      ∧ consume 2 (.received [⟨0, [1], [2]⟩]) = [some ⟨0, [1], [2]⟩] := by decide

/-! ## Token bucket (src/include/dsp/token_bucket.hh)

Doubles and wall-clock timestamps are modelled by rationals; timestamps are
in seconds, so nova::to_sec is the identity here. static_cast<long> of a
double truncates toward zero, modelled by truncZ. -/

/-- Truncation of a rational toward zero, the behaviour of
static_cast<long> applied to a double. -/
def truncZ (q : ℚ) : Int :=
  if 0 ≤ q then ⌊q⌋ else -⌊-q⌋

/-- Translation of the token_bucket state. -/
structure TokenBucket where
  tokens : Int
  limit : Int
  rate : ℚ
  last_replenished : ℚ
deriving DecidableEq, Repr

/-- Request to pause the calling thread, as issued by token_bucket::wait:
the duration in whole milliseconds and whether it is served by a busy spin
(true) or a thread sleep (false). -/
structure WaitReq where
  duration_ms : Int
  busy : Bool
deriving DecidableEq, Repr

/-- Translation of token_bucket::wait: the wait is tokens divided by rate
seconds, truncated to whole milliseconds; durations under 500 ms busy-spin,
longer ones put the thread to sleep. -/
def wait (rate : ℚ) (tokens : Int) : WaitReq :=
  let x := truncZ ((tokens : ℚ) / rate * 1000)
  { duration_ms := x, busy := decide (x < 500) }

/-- Translation of token_bucket::accumulate: rate times the elapsed
seconds, truncated to a long and capped at the limit. -/
def accumulate (b : TokenBucket) (elapsed : ℚ) : Int :=
  min (truncZ (b.rate * elapsed)) b.limit

/-- Translation of token_bucket::replenish at wall-clock time now: add the
accumulated tokens for the time since last_replenished and update the
timestamp. -/
def replenish (b : TokenBucket) (now : ℚ) : TokenBucket :=
  { b with
    tokens := b.tokens + accumulate b (now - b.last_replenished)
  , last_replenished := now }

/-- Translation of token_bucket::take: decrement the counter; when it went
negative, wait for the deficit and then replenish, where now is the
wall-clock time at the replenish call (after the wait). The middle
component is the wait request issued, if any. -/
def take (b : TokenBucket) (n : Int) (now : ℚ) : TokenBucket × Option WaitReq × Int :=
  let t := b.tokens - n
  if t < 0 then
    (replenish { b with tokens := t } now, some (wait b.rate (-t)), n)
  else
    ({ b with tokens := t }, none, n)

/-- Claim C8: take(n) always returns n and decrements the token count by n.
When the count stays non-negative nothing else happens; when it goes
negative the caller waits the deficit divided by rate seconds (truncated to
whole milliseconds), via a busy spin exactly when that duration is under
500 ms and via a thread sleep otherwise, and replenish then runs: it adds
min(rate times elapsed, limit) tokens — never more than limit — for the
wall-clock time elapsed since last_replenished and sets last_replenished to
now. -/
theorem c8_token_bucket (b : TokenBucket) (n : Int) (now : ℚ) :
    (take b n now).2.2 = n
      ∧ (0 ≤ b.tokens - n →
          (take b n now).1.tokens = b.tokens - n
            ∧ (take b n now).2.1 = none
            ∧ (take b n now).1.last_replenished = b.last_replenished)
      ∧ (b.tokens - n < 0 →
          (take b n now).1.tokens
              = b.tokens - n
                  + min (truncZ (b.rate * (now - b.last_replenished))) b.limit
            ∧ (take b n now).1.tokens ≤ b.tokens - n + b.limit
            ∧ (take b n now).1.last_replenished = now
            ∧ (take b n now).2.1 = some (wait b.rate (n - b.tokens))
            ∧ (wait b.rate (n - b.tokens)).duration_ms
                = truncZ (((n - b.tokens : Int) : ℚ) / b.rate * 1000)
            ∧ ((wait b.rate (n - b.tokens)).busy = true
                ↔ (wait b.rate (n - b.tokens)).duration_ms < 500)) := by
  unfold take
  by_cases h : b.tokens - n < 0
  · rw [if_pos h]
    refine ⟨rfl, fun h0 => absurd h (not_lt.mpr h0), fun _ => ?_⟩
    have hneg : -(b.tokens - n) = n - b.tokens := by ring
    refine ⟨rfl, ?_, rfl, by rw [hneg], rfl, ?_⟩
    · have := min_le_right (truncZ (b.rate * (now - b.last_replenished))) b.limit
      simp only [replenish, accumulate]
      omega
    · simp [wait]
  · rw [if_neg h]
    exact ⟨rfl, fun _ => ⟨rfl, rfl, rfl⟩, fun hlt => absurd hlt h⟩

/-- Witness for c8_token_bucket: a bucket of 5 tokens, limit 10, rate 2,
last replenished at time 0; taking 7 tokens at time 3 goes negative, issues
a wait and replenishes. -/
theorem c8_token_bucket_witness :
    (take ⟨5, 10, 2, 0⟩ 7 3).2.2 = 7
      ∧ (take ⟨5, 10, 2, 0⟩ 7 3).1.tokens
          = (5 : Int) - 7 + min (truncZ ((2 : ℚ) * (3 - 0))) 10
      ∧ (take ⟨5, 10, 2, 0⟩ 7 3).1.last_replenished = 3 :=
  ⟨(c8_token_bucket ⟨5, 10, 2, 0⟩ 7 3).1,
   ((c8_token_bucket ⟨5, 10, 2, 0⟩ 7 3).2.2 (by decide)).1,
   ((c8_token_bucket ⟨5, 10, 2, 0⟩ 7 3).2.2 (by decide)).2.2.1⟩

/-! ## Byte buffers and framed handlers
(src/include/dsp/handler.hh and src/src/svc/handler.cc)

nova::data_view is part of the external nova library, not of this
repository, so its primitives are modelled from the wire-format section of
the spec: a buffer is a list of byte values, multi-byte reads are
little-endian and bounds-checked, a subview clamps to the available bytes
(the spec expects the payload of an exactly-frame-sized buffer to be the
framed length minus the two prefix bytes). -/

/-- Byte at index i of a buffer, zero when out of range (only used behind a
bounds check). -/
def byteAt (v : List Nat) (i : Nat) : Nat :=
  (v[i]?).getD 0

/-- Modelled from the spec: nova data_view as_number over two bytes, the
little-endian 16-bit read used for the length prefix and the type field;
none when fewer than two bytes are available from the offset. -/
def as_number16 (v : List Nat) (off : Nat) : Option Nat :=
  if off + 2 ≤ v.length then some (byteAt v off + 256 * byteAt v (off + 1)) else none

/-- Modelled from the spec: nova data_view as_number over eight bytes, the
little-endian 64-bit read used for the heartbeat fields; none when fewer
than eight bytes are available from the offset. -/
def as_number64 (v : List Nat) (off : Nat) : Option Nat :=
  if off + 8 ≤ v.length then
    some (byteAt v off
      + 256 * byteAt v (off + 1)
      + 256 ^ 2 * byteAt v (off + 2)
      + 256 ^ 3 * byteAt v (off + 3)
      + 256 ^ 4 * byteAt v (off + 4)
      + 256 ^ 5 * byteAt v (off + 5)
      + 256 ^ 6 * byteAt v (off + 6)
      + 256 ^ 7 * byteAt v (off + 7))
  else none

/-- Modelled from the spec: nova data_view subview(offset, count), clamped
to the bytes actually present. -/
def subview (v : List Nat) (off cnt : Nat) : List Nat :=
  (v.drop off).take cnt

/-- Modelled from the spec: nova data_view subview(offset) to the end. -/
def subviewFrom (v : List Nat) (off : Nat) : List Nat :=
  v.drop off

/-- Errors the telemetry handler can raise: the explicit unsupported-type
exception of do_process, and a bounds failure from a data_view read. -/
inductive HandlerError where
  | unsupportedType
  | outOfRange
deriving DecidableEq, Repr

/-- Translation of dat::message::LengthPrefixSize. -/
def LengthPrefixSize : Nat := 2

/-- Translation of dat::telemetry::MinimumLength (prefix plus type field). -/
def MinimumLength : Nat := LengthPrefixSize + 2

/-- Translation of app::handler::do_process (the telemetry handler of
src/src/svc/handler.cc): too little data returns 0 consumed; otherwise the
2-byte little-endian prefix L is read; a buffer shorter than L returns 0;
otherwise the message is dispatched on the type field of the body
(subview(2, L)): type 0 builds a heartbeat whose deserialization reads
three 64-bit fields, type 1 builds a dyn_message, anything else throws.
The result is the consumed length together with the number of messages
handed to send. -/
def app_do_process (data : List Nat) : Except HandlerError (Nat × Nat) :=
  if data.length < MinimumLength then .ok (0, 0)
  else
    match as_number16 data 0 with
    | none => .error .outOfRange
    | some L =>
        if data.length < L then .ok (0, 0)
        else
          match as_number16 (subview data LengthPrefixSize L) 0 with
          | none => .error .outOfRange
          | some ty =>
              if ty = 0 then
                match as_number64 (subviewFrom (subview data LengthPrefixSize L) 2) 0,
                      as_number64 (subviewFrom (subview data LengthPrefixSize L) 2) 8,
                      as_number64 (subviewFrom (subview data LengthPrefixSize L) 2) 16 with
                | some _, some _, some _ => .ok (L, 1)
                | _, _, _ => .error .outOfRange
              else if ty = 1 then .ok (L, 1)
              else .error .unsupportedType

/-- Translation of dsp::tcp::handler_frame::process wrapping the telemetry
handler: an empty buffer consumes 0 immediately; otherwise do_process runs
and its consumed count is passed through (a 0 from do_process skips the
metrics update but is returned unchanged). -/
def frame_process (data : List Nat) : Except HandlerError (Nat × Nat) :=
  if data.length = 0 then .ok (0, 0)
  else
    match app_do_process data with
    | .error e => .error e
    | .ok (n, h) => if n = 0 then .ok (0, h) else .ok (n, h)

/-- Announced framed length of a buffer: the value of its little-endian
2-byte prefix. -/
def frameLen (v : List Nat) : Nat :=
  byteAt v 0 + 256 * byteAt v 1

/-- A buffer that is exactly one well-formed frame of the telemetry
protocol: the announced length L counts the whole frame and equals the
buffer length, the minimal header fits, and the type field holds a
supported type (1 = dyn_message, or 0 = heartbeat with the 28 bytes its
three 64-bit fields need). -/
def WellFormedFrame (frame : List Nat) : Prop :=
  MinimumLength ≤ frame.length
    ∧ frameLen frame = frame.length
    ∧ (byteAt frame 2 + 256 * byteAt frame 3 = 1
        ∨ (byteAt frame 2 + 256 * byteAt frame 3 = 0 ∧ 28 ≤ frame.length))

instance (frame : List Nat) : Decidable (WellFormedFrame frame) := by
  unfold WellFormedFrame
  infer_instance

theorem byteAt_append (v rest : List Nat) (i : Nat) (h : i < v.length) :
    byteAt (v ++ rest) i = byteAt v i := by
  unfold byteAt
  rw [List.getElem?_append, if_pos h]

theorem byteAt_take (v : List Nat) (k i : Nat) (h : i < k) :
    byteAt (v.take k) i = byteAt v i := by
  unfold byteAt
  rw [List.getElem?_take, if_pos h]

theorem byteAt_drop (v : List Nat) (o i : Nat) :
    byteAt (v.drop o) i = byteAt v (o + i) := by
  unfold byteAt
  rw [List.getElem?_drop]

theorem as_number16_in_range (v : List Nat) (off : Nat) (h : off + 2 ≤ v.length) :
    as_number16 v off = some (byteAt v off + 256 * byteAt v (off + 1)) := by
  rw [as_number16, if_pos h]

theorem as_number16_append (v rest : List Nat) (off : Nat) (h : off + 2 ≤ v.length) :
    as_number16 (v ++ rest) off = as_number16 v off := by
  rw [as_number16_in_range v off h,
      as_number16_in_range (v ++ rest) off (by simp; omega),
      byteAt_append v rest off (by omega),
      byteAt_append v rest (off + 1) (by omega)]

theorem as_number16_take (v : List Nat) (k off : Nat) (h : off + 2 ≤ k)
    (hk : k ≤ v.length) :
    as_number16 (v.take k) off = as_number16 v off := by
  rw [as_number16_in_range v off (by omega),
      as_number16_in_range (v.take k) off (by simp; omega),
      byteAt_take v k off (by omega),
      byteAt_take v k (off + 1) (by omega)]

theorem as_number64_isSome (v : List Nat) (off : Nat) (h : off + 8 ≤ v.length) :
    ∃ x, as_number64 v off = some x := by
  rw [as_number64, if_pos h]
  exact ⟨_, rfl⟩

/-- Helper: a buffer shorter than the minimal header is rejected with zero
bytes consumed and no message handled. -/
theorem frame_process_short (data : List Nat) (h : data.length < MinimumLength) :
    frame_process data = .ok (0, 0) := by
  by_cases h0 : data.length = 0
  · rw [frame_process, if_pos h0]
  · rw [frame_process, if_neg h0, app_do_process, if_pos h]
    rfl

/-- Helper: a buffer shorter than its announced framed length is rejected
with zero bytes consumed and no message handled. -/
theorem frame_process_partial (data : List Nat) (L : Nat)
    (hL : as_number16 data 0 = some L) (h : data.length < L) :
    frame_process data = .ok (0, 0) := by
  by_cases hshort : data.length < MinimumLength
  · exact frame_process_short data hshort
  · have h0 : ¬ data.length = 0 := by unfold MinimumLength LengthPrefixSize at hshort; omega
    rw [frame_process, if_neg h0, app_do_process, if_neg hshort, hL]
    simp only [if_pos h]
    rfl

/-- Helper: a well-formed frame at the head of the buffer is consumed
whole: the handler processes exactly one message and reports the announced
framed length, which equals the frame size. -/
theorem frame_process_complete (frame rest : List Nat) (h : WellFormedFrame frame) :
    frame_process (frame ++ rest) = .ok (frame.length, 1) := by
  obtain ⟨hmin, hlen, hty⟩ := h
  have hmin4 : 4 ≤ frame.length := by
    unfold MinimumLength LengthPrefixSize at hmin
    omega
  have hdlen : frame.length ≤ (frame ++ rest).length := by simp
  have hlenapp : (frame ++ rest).length = frame.length + rest.length := by simp
  have h0 : ¬ (frame ++ rest).length = 0 := by omega
  have hshort : ¬ (frame ++ rest).length < MinimumLength := by
    unfold MinimumLength LengthPrefixSize
    omega
  have hL : as_number16 (frame ++ rest) 0 = some frame.length := by
    rw [as_number16_append frame rest 0 (by omega), as_number16_in_range frame 0 (by omega)]
    exact congrArg some hlen
  have hnotlt : ¬ (frame ++ rest).length < frame.length := by omega
  -- the body view and its type field
  have hbodylen : (subview (frame ++ rest) LengthPrefixSize frame.length).length
      = min frame.length ((frame ++ rest).length - 2) := by
    unfold subview LengthPrefixSize
    simp
  have hb0 : byteAt (subview (frame ++ rest) LengthPrefixSize frame.length) 0
      = byteAt frame 2 := by
    unfold subview LengthPrefixSize
    rw [byteAt_take _ _ _ (by omega), byteAt_drop, byteAt_append frame rest 2 (by omega)]
  have hb1 : byteAt (subview (frame ++ rest) LengthPrefixSize frame.length) 1
      = byteAt frame 3 := by
    unfold subview LengthPrefixSize
    rw [byteAt_take _ _ _ (by omega), byteAt_drop, byteAt_append frame rest 3 (by omega)]
  have hTy : as_number16 (subview (frame ++ rest) LengthPrefixSize frame.length) 0
      = some (byteAt frame 2 + 256 * byteAt frame 3) := by
    rw [as_number16_in_range _ 0 (by omega), hb0, hb1]
  rw [frame_process, if_neg h0, app_do_process, if_neg hshort, hL]
  simp only [if_neg hnotlt]
  rw [hTy]
  cases hty with
  | inl h1 =>
      rw [h1]
      simp only [if_neg (by omega : ¬ (1 : Nat) = 0), if_pos rfl]
      have hLne : ¬ frame.length = 0 := by omega
      simp [frame_process, hLne]
  | inr h0ty =>
      obtain ⟨hzero, h28⟩ := h0ty
      rw [hzero]
      simp only [if_pos rfl]
      have htp : (subviewFrom (subview (frame ++ rest) LengthPrefixSize frame.length) 2).length
          = (subview (frame ++ rest) LengthPrefixSize frame.length).length - 2 := by
        unfold subviewFrom
        simp
      obtain ⟨x0, hx0⟩ := as_number64_isSome
        (subviewFrom (subview (frame ++ rest) LengthPrefixSize frame.length) 2) 0 (by omega)
      obtain ⟨x1, hx1⟩ := as_number64_isSome
        (subviewFrom (subview (frame ++ rest) LengthPrefixSize frame.length) 2) 8 (by omega)
      obtain ⟨x2, hx2⟩ := as_number64_isSome
        (subviewFrom (subview (frame ++ rest) LengthPrefixSize frame.length) 2) 16 (by omega)
      rw [hx0, hx1, hx2]
      have hLne : ¬ frame.length = 0 := by omega
      simp [hLne]

/-- Claim C2 (amended): for every buffer handed to the framed TCP telemetry
handler, if the buffer is empty, shorter than the minimal header, or
shorter than the length L announced by its little-endian 2-byte prefix,
process returns 0 and consumes nothing; a buffer starting with a complete
well-formed frame (announced length counts the whole frame, supported type
field: dyn_message, or heartbeat with the 28 bytes its fields need) makes
process handle exactly one message and return that framed length L; a
complete frame with an unsupported type instead raises an error. A strict
truncation of a well-formed frame always returns 0, so no bytes are lost:
once the rest arrives the completed frame is processed. -/
theorem c2_frame_process :
    (∀ data : List Nat, data.length < MinimumLength → frame_process data = .ok (0, 0))
      ∧ (∀ (data : List Nat) (L : Nat), as_number16 data 0 = some L →
          data.length < L → frame_process data = .ok (0, 0))
      ∧ (∀ frame rest : List Nat, WellFormedFrame frame →
          frame_process (frame ++ rest) = .ok (frame.length, 1))
      ∧ (∀ (frame : List Nat) (k : Nat), WellFormedFrame frame → k < frame.length →
          frame_process (frame.take k) = .ok (0, 0)) := by
  refine ⟨frame_process_short, frame_process_partial, frame_process_complete, ?_⟩
  intro frame k h hk
  obtain ⟨hmin, hlen, _⟩ := h
  by_cases hk4 : k < MinimumLength
  · exact frame_process_short (frame.take k)
      (by rw [List.length_take]; unfold MinimumLength LengthPrefixSize at hk4 ⊢; omega)
  · have h4 : 4 ≤ k := by unfold MinimumLength LengthPrefixSize at hk4; omega
    refine frame_process_partial (frame.take k) frame.length ?_ ?_
    · rw [as_number16_take frame k 0 (by omega) (by omega),
          as_number16_in_range frame 0 (by omega)]
      exact congrArg some hlen
    · rw [List.length_take]
      omega

/-- Witness for c2_frame_process: a six-byte dyn_message frame followed by
a spare byte is consumed as one message of length six, and its three-byte
truncation is rejected with zero consumed. -/
theorem c2_frame_process_witness :
    frame_process ([6, 0, 1, 0, 9, 9] ++ [7]) = .ok (6, 1)
      ∧ frame_process (List.take 3 [6, 0, 1, 0, 9, 9]) = .ok (0, 0) :=
  ⟨c2_frame_process.2.2.1 [6, 0, 1, 0, 9, 9] [7] (by decide),
   c2_frame_process.2.2.2 [6, 0, 1, 0, 9, 9] 3 (by decide) (by decide)⟩

/-- Counterexample to claim C2 as stated: the buffer [4, 0, 7, 0] is one
complete frame (announced length 4 equals its size), so the claim says
process handles it and returns 4; the code instead throws the
unsupported-message-type exception, because the type field holds 7. -/
theorem c2_counterexample :
    frame_process [4, 0, 7, 0] = .error .unsupportedType
      ∧ as_number16 [4, 0, 7, 0] 0 = some 4
      ∧ (List.length [4, 0, 7, 0] : Nat) = 4 :=
  ⟨rfl, by decide, by decide⟩

/-! ## Passthrough handler (src/src/svc/handler.cc,
passthrough_handler::do_process) -/

/-- Translation of passthrough_handler::do_process: a buffer shorter than
the 2-byte prefix or shorter than the announced length L is rejected with 0
consumed and nothing sent; otherwise one message is built with empty key,
the configured topic as subject, no properties and the payload view
subview(2, L), handed to the cache exactly once, and L is returned. -/
def passthrough_do_process (topic : String) (data : List Nat) : Nat × List Message :=
  if data.length < LengthPrefixSize then (0, [])
  else
    let L := frameLen data
    if data.length < L then (0, [])
    else
      (L, [{ key := []
           , subject := topic
           , properties := []
           , payload := subview data LengthPrefixSize L }])

/-- Claim C9: with app.topic = t1, the frame whose little-endian prefix is
10 followed by the eight body bytes "ABCDEFGH" produces exactly one
outbound message with subject t1, empty key and exactly those eight body
bytes as payload (the framed length minus the 2-byte prefix), and returns
the framed length 10. -/
theorem c9_passthrough :
    passthrough_do_process "t1" [10, 0, 65, 66, 67, 68, 69, 70, 71, 72]
      = (10, [{ key := []
              , subject := "t1"
              , properties := []
              , payload := [65, 66, 67, 68, 69, 70, 71, 72] }]) := by decide

end Dsp
